import Mathlib

/-!
Shallow embedding of the MIDI stream decoder of `hardware/midi/midi.h`
(class `MidiStreamParser<Device>`).  The parser state is the four member
variables `running_status_`, `data_[3]`, `data_size_`,
`expected_data_size_`.  The `Device` callbacks are modelled as a trace of
events returned by each call, and the `CheckChannel` predicate of the
device is a boolean parameter `accept`.
-/

namespace hardware_midi

/-- Callbacks of the `MidiDevice` interface, recorded as trace events.
The two C++ `Aftertouch` overloads get distinct constructor names. -/
inductive Event where
  | NoteOn (channel note velocity : Nat)
  | NoteOff (channel note velocity : Nat)
  | AftertouchPoly (channel note velocity : Nat)
  | AftertouchChannel (channel velocity : Nat)
  | ControlChange (channel controller value : Nat)
  | ProgramChange (channel program : Nat)
  | PitchBend (channel pitch : Nat)
  | AllSoundOff (channel : Nat)
  | ResetAllControllers (channel : Nat)
  | LocalControl (channel state : Nat)
  | AllNotesOff (channel : Nat)
  | OmniModeOff (channel : Nat)
  | OmniModeOn (channel : Nat)
  | MonoModeOn (channel num_channels : Nat)
  | PolyModeOn (channel : Nat)
  | SysExStart
  | SysExByte (b : Nat)
  | SysExEnd
  | BozoByte (b : Nat)
  | Clock
  | Start
  | Continue
  | Stop
  | ActiveSensing
  | Reset
  deriving DecidableEq, Repr

/-- Parser state: the four member variables of `MidiStreamParser`.  The
3-byte array `data_` is modelled by the fields `data_0`, `data_1`,
`data_2`.  All bytes are `Nat` values below 256. -/
structure MidiState where
  running_status_ : Nat
  data_0 : Nat
  data_1 : Nat
  data_2 : Nat
  data_size_ : Nat
  expected_data_size_ : Nat
  deriving DecidableEq, Repr

/-- State after the constructor.  The constructor zeroes
`running_status_`, `data_size_` and `expected_data_size_` and leaves
`data_` uninitialised; we pick 0 for the array cells (no dispatched event
reads a cell before the parser writes it). -/
def initState : MidiState :=
  { running_status_ := 0, data_0 := 0, data_1 := 0, data_2 := 0,
    data_size_ := 0, expected_data_size_ := 0 }

/-- Write `data_[i] = v`.  An index outside the array would be undefined
behaviour in the C++; it is modelled as a no-op, and the safety claim
shows the parser never produces such an index from a reachable state. -/
def writeData (s : MidiState) (i v : Nat) : MidiState :=
  if i = 0 then { s with data_0 := v }
  else if i = 1 then { s with data_1 := v }
  else if i = 2 then { s with data_2 := v }
  else s

/-- Expected number of data bytes, from the `switch (hi)` in `PushByte`
(initial value 1, overwritten by the matching case). -/
def expectedSizeOf (hi lo : Nat) : Nat :=
  if hi = 0x80 ∨ hi = 0x90 ∨ hi = 0xa0 ∨ hi = 0xb0 then 2
  else if hi = 0xc0 ∨ hi = 0xd0 then 1
  else if hi = 0xe0 then 2
  else if hi = 0xf0 then
    if 0 < lo ∧ lo < 3 then 2
    else if 4 ≤ lo then 0
    else 1
  else 1

/-- Dispatch arm of `MessageReceived`: the `switch (hi)` (with the nested
`switch (data_[0])` for 0xB0 and `switch (lo)` for 0xF0). -/
def dispatchEvent (s : MidiState) (hi lo : Nat) : List Event :=
  if hi = 0x80 then [Event.NoteOff lo s.data_0 s.data_1]
  else if hi = 0x90 then
    if s.data_1 ≠ 0 then [Event.NoteOn lo s.data_0 s.data_1]
    else [Event.NoteOff lo s.data_0 0]
  else if hi = 0xa0 then [Event.AftertouchPoly lo s.data_0 s.data_1]
  else if hi = 0xb0 then
    if s.data_0 = 0x78 then [Event.AllSoundOff lo]
    else if s.data_0 = 0x79 then [Event.ResetAllControllers lo]
    else if s.data_0 = 0x7a then [Event.LocalControl lo s.data_1]
    else if s.data_0 = 0x7b then [Event.AllNotesOff lo]
    else if s.data_0 = 0x7c then [Event.OmniModeOff lo]
    else if s.data_0 = 0x7d then [Event.OmniModeOn lo]
    else if s.data_0 = 0x7e then [Event.MonoModeOn lo s.data_1]
    else if s.data_0 = 0x7f then [Event.PolyModeOn lo]
    else [Event.ControlChange lo s.data_0 s.data_1]
  else if hi = 0xc0 then [Event.ProgramChange lo s.data_0]
  else if hi = 0xd0 then [Event.AftertouchChannel lo s.data_0]
  else if hi = 0xe0 then [Event.PitchBend lo (s.data_1 * 128 + s.data_0)]
  else if hi = 0xf0 then
    if lo = 0x0 then [Event.SysExByte s.data_0]
    else if lo = 0x7 then [Event.SysExEnd]
    else if lo = 0x8 then [Event.Clock]
    else if lo = 0xa then [Event.Start]
    else if lo = 0xb then [Event.Continue]
    else if lo = 0xc then [Event.Stop]
    else if lo = 0xe then [Event.ActiveSensing]
    else if lo = 0xf then [Event.Reset]
    else []
  else []

/-- `MidiStreamParser::MessageReceived`: reports `BozoByte(data_[0])` for
a zero status, gates channel-specific messages through the device's
`CheckChannel` predicate (`accept`), then dispatches.  The function never
mutates parser state, so it returns only the emitted events. -/
def MessageReceived (accept : Nat → Bool) (s : MidiState) (status : Nat) :
    List Event :=
  let bozo := if status = 0 then [Event.BozoByte s.data_0] else []
  let hi := status &&& 0xf0
  let lo := status &&& 0x0f
  if hi ≠ 0xf0 ∧ accept lo = false then bozo
  else bozo ++ dispatchEvent s hi lo

/-- First phase of the non-realtime path of `PushByte`: a status byte
(0x80 ≤ byte) resets the counters, computes the expected size, performs
the implicit SysEx termination check and installs the new running status;
a data byte is stored via `data_[data_size_++] = byte`. -/
def phase1 (s : MidiState) (byte : Nat) : MidiState × List Event :=
  if 0x80 ≤ byte then
    let hi := byte &&& 0xf0
    let lo := byte &&& 0x0f
    let ev1 := if s.running_status_ = 0xf0 then [Event.SysExEnd] else []
    let ev2 := if byte = 0xf0 then [Event.SysExStart] else []
    ({ s with data_size_ := 0,
              expected_data_size_ := expectedSizeOf hi lo,
              running_status_ := byte },
     ev1 ++ ev2)
  else
    ({ writeData s s.data_size_ byte with
         data_size_ := (s.data_size_ + 1) % 256 }, [])

/-- End-of-message bookkeeping of `PushByte` after the dispatch:
`data_size_ = 0`, and the one-shot clearing of `expected_data_size_` and
`running_status_` for statuses strictly above 0xF0. -/
def finalize (s : MidiState) : MidiState :=
  let s2 := { s with data_size_ := 0 }
  if 0xf0 < s2.running_status_ then
    { s2 with expected_data_size_ := 0, running_status_ := 0 }
  else s2

/-- Result of one `PushByte` call: the new parser state, the events
emitted on the device during the call (in order), and the returned
byte. -/
structure PushResult where
  state : MidiState
  events : List Event
  ret : Nat
  deriving DecidableEq, Repr

/-- `MidiStreamParser::PushByte`.  Realtime bytes (0xF8 and above) are
dispatched immediately without touching the state; any other byte goes
through `phase1` and, when `data_size_ >= expected_data_size_`, the
message is dispatched and finalised. -/
def PushByte (accept : Nat → Bool) (s : MidiState) (byte : Nat) :
    PushResult :=
  if 0xf8 ≤ byte then
    { state := s, events := MessageReceived accept s byte, ret := byte }
  else
    let p := phase1 s byte
    if p.1.expected_data_size_ ≤ p.1.data_size_ then
      { state := finalize p.1,
        events := p.2 ++ MessageReceived accept p.1 p.1.running_status_,
        ret := p.1.running_status_ }
    else
      { state := p.1, events := p.2, ret := 0 }

/-- Device that accepts every channel, like the default
`MidiDevice::CheckChannel` which returns 1. -/
def acceptAll : Nat → Bool := fun _ => true

/-- Final state after feeding a byte list. -/
def runFrom (accept : Nat → Bool) (s : MidiState) : List Nat → MidiState
  | [] => s
  | b :: bs => runFrom accept (PushByte accept s b).state bs

/-- Concatenated event trace of feeding a byte list. -/
def eventsFrom (accept : Nat → Bool) (s : MidiState) :
    List Nat → List Event
  | [] => []
  | b :: bs =>
      (PushByte accept s b).events ++
        eventsFrom accept (PushByte accept s b).state bs

/-- Return values of the successive `PushByte` calls on a byte list. -/
def retsFrom (accept : Nat → Bool) (s : MidiState) : List Nat → List Nat
  | [] => []
  | b :: bs =>
      (PushByte accept s b).ret ::
        retsFrom accept (PushByte accept s b).state bs

/-- States reachable from the constructor by feeding bytes (any device
channel predicate; the state update is independent of it). -/
inductive Reachable : MidiState → Prop where
  | init : Reachable initState
  | step (accept : Nat → Bool) (s : MidiState) (b : Nat) :
      Reachable s → b < 256 → Reachable (PushByte accept s b).state

/-! Helper lemmas about the embedded parser. -/

@[simp]
lemma writeData_running_status (s : MidiState) (i v : Nat) :
    (writeData s i v).running_status_ = s.running_status_ := by
  unfold writeData
  repeat' split
  all_goals rfl

@[simp]
lemma writeData_data_size (s : MidiState) (i v : Nat) :
    (writeData s i v).data_size_ = s.data_size_ := by
  unfold writeData
  repeat' split
  all_goals rfl

@[simp]
lemma writeData_expected_data_size (s : MidiState) (i v : Nat) :
    (writeData s i v).expected_data_size_ = s.expected_data_size_ := by
  unfold writeData
  repeat' split
  all_goals rfl

lemma expectedSizeOf_le_two (hi lo : Nat) : expectedSizeOf hi lo ≤ 2 := by
  unfold expectedSizeOf
  repeat' split
  all_goals simp

lemma length_ite_le (c : Prop) [Decidable c] (a b : List Event)
    (ha : a.length ≤ 1) (hb : b.length ≤ 1) :
    (if c then a else b).length ≤ 1 := by
  split <;> assumption

lemma dispatchEvent_length (s : MidiState) (hi lo : Nat) :
    (dispatchEvent s hi lo).length ≤ 1 := by
  unfold dispatchEvent
  repeat' apply length_ite_le
  all_goals simp

lemma MessageReceived_zero (accept : Nat → Bool) (s : MidiState) :
    MessageReceived accept s 0 = [Event.BozoByte s.data_0] := by
  simp [MessageReceived, dispatchEvent]

lemma MessageReceived_length (accept : Nat → Bool) (s : MidiState)
    (status : Nat) : (MessageReceived accept s status).length ≤ 1 := by
  by_cases h0 : status = 0
  · subst h0
    rw [MessageReceived_zero]
    simp
  · unfold MessageReceived
    simp only [h0, if_false]
    split
    · simp
    · simpa [h0] using dispatchEvent_length s (status &&& 0xf0) (status &&& 0x0f)

lemma phase1_ds (s : MidiState) (b : Nat) :
    (phase1 s b).1.data_size_ =
      if 0x80 ≤ b then 0 else (s.data_size_ + 1) % 256 := by
  unfold phase1
  split
  all_goals simp

lemma phase1_exp (s : MidiState) (b : Nat) :
    (phase1 s b).1.expected_data_size_ =
      if 0x80 ≤ b then expectedSizeOf (b &&& 0xf0) (b &&& 0x0f)
      else s.expected_data_size_ := by
  unfold phase1
  split
  all_goals simp

lemma phase1_run (s : MidiState) (b : Nat) :
    (phase1 s b).1.running_status_ =
      if 0x80 ≤ b then b else s.running_status_ := by
  unfold phase1
  split
  all_goals simp

lemma phase1_events_status (s : MidiState) (b : Nat) (h : 0x80 ≤ b) :
    (phase1 s b).2 =
      (if s.running_status_ = 0xf0 then [Event.SysExEnd] else []) ++
        (if b = 0xf0 then [Event.SysExStart] else []) := by
  unfold phase1
  rw [if_pos h]

lemma phase1_events_data (s : MidiState) (b : Nat) (h : ¬ 0x80 ≤ b) :
    (phase1 s b).2 = [] := by
  unfold phase1
  rw [if_neg h]

lemma PushByte_realtime (accept : Nat → Bool) (s : MidiState) (b : Nat)
    (h : 0xf8 ≤ b) :
    PushByte accept s b =
      { state := s, events := MessageReceived accept s b, ret := b } := by
  simp [PushByte, h]

lemma PushByte_complete (accept : Nat → Bool) (s : MidiState) (b : Nat)
    (h : ¬ 0xf8 ≤ b)
    (hc : (phase1 s b).1.expected_data_size_ ≤ (phase1 s b).1.data_size_) :
    PushByte accept s b =
      { state := finalize (phase1 s b).1,
        events := (phase1 s b).2 ++
          MessageReceived accept (phase1 s b).1 (phase1 s b).1.running_status_,
        ret := (phase1 s b).1.running_status_ } := by
  simp [PushByte, h, hc]

lemma PushByte_incomplete (accept : Nat → Bool) (s : MidiState) (b : Nat)
    (h : ¬ 0xf8 ≤ b)
    (hc : ¬ (phase1 s b).1.expected_data_size_ ≤ (phase1 s b).1.data_size_) :
    PushByte accept s b =
      { state := (phase1 s b).1, events := (phase1 s b).2, ret := 0 } := by
  simp [PushByte, h, hc]

lemma finalize_ds (s : MidiState) : (finalize s).data_size_ = 0 := by
  by_cases hf : 0xf0 < s.running_status_ <;> simp [finalize, hf]

lemma finalize_exp (s : MidiState) :
    (finalize s).expected_data_size_ =
      if 0xf0 < s.running_status_ then 0 else s.expected_data_size_ := by
  by_cases hf : 0xf0 < s.running_status_ <;> simp [finalize, hf]

lemma finalize_run (s : MidiState) :
    (finalize s).running_status_ =
      if 0xf0 < s.running_status_ then 0 else s.running_status_ := by
  by_cases hf : 0xf0 < s.running_status_ <;> simp [finalize, hf]

/-- State invariant maintained across `PushByte` calls. -/
def Inv (s : MidiState) : Prop :=
  s.data_size_ ≤ s.expected_data_size_ ∧ s.expected_data_size_ ≤ 2 ∧
    (s.running_status_ = 0 →
      s.data_size_ = 0 ∧ s.expected_data_size_ = 0)

lemma Inv_finalize (t : MidiState) (h2 : t.expected_data_size_ ≤ 2)
    (h0 : t.running_status_ = 0 → t.expected_data_size_ = 0) :
    Inv (finalize t) := by
  unfold Inv
  rw [finalize_ds, finalize_exp, finalize_run]
  by_cases hf : 0xf0 < t.running_status_
  · simp [hf]
  · simp only [hf, if_false]
    refine ⟨Nat.zero_le _, h2, fun hr => ⟨?_, h0 hr⟩⟩
    trivial

lemma Inv_step (accept : Nat → Bool) (s : MidiState) (b : Nat)
    (hs : Inv s) : Inv (PushByte accept s b).state := by
  obtain ⟨hds, hexp, hzero⟩ := hs
  have hE := expectedSizeOf_le_two (b &&& 0xf0) (b &&& 0x0f)
  by_cases h8 : 0xf8 ≤ b
  · rw [PushByte_realtime accept s b h8]
    exact ⟨hds, hexp, hzero⟩
  · by_cases h80 : 0x80 ≤ b
    · by_cases hc : (phase1 s b).1.expected_data_size_ ≤
          (phase1 s b).1.data_size_
      · rw [PushByte_complete accept s b h8 hc]
        refine Inv_finalize _ ?_ ?_
        · rw [phase1_exp]
          simp only [h80, if_true]
          exact hE
        · rw [phase1_run, phase1_exp]
          simp only [h80, if_true]
          omega
      · rw [PushByte_incomplete accept s b h8 hc]
        unfold Inv
        rw [phase1_ds, phase1_exp, phase1_run]
        simp only [h80, if_true]
        exact ⟨Nat.zero_le _, hE, by omega⟩
    · have hmod : (s.data_size_ + 1) % 256 = s.data_size_ + 1 :=
        Nat.mod_eq_of_lt (by omega)
      by_cases hc : (phase1 s b).1.expected_data_size_ ≤
          (phase1 s b).1.data_size_
      · rw [PushByte_complete accept s b h8 hc]
        refine Inv_finalize _ ?_ ?_
        · rw [phase1_exp]
          simp only [h80, if_false]
          exact hexp
        · rw [phase1_run, phase1_exp]
          simp only [h80, if_false]
          exact fun hr => (hzero hr).2
      · rw [PushByte_incomplete accept s b h8 hc]
        rw [phase1_exp, phase1_ds] at hc
        simp only [h80, if_false] at hc
        rw [hmod] at hc
        unfold Inv
        rw [phase1_ds, phase1_exp, phase1_run]
        simp only [h80, if_false]
        rw [hmod]
        refine ⟨by omega, hexp, fun hr => ?_⟩
        exact absurd ((hzero hr).2 ▸ Nat.zero_le _) hc

lemma reachable_inv (s : MidiState) (h : Reachable s) : Inv s := by
  induction h with
  | init => unfold Inv; decide
  | step accept t b ht hb ih => exact Inv_step accept t b ih

lemma PushByte_state_indep (a a' : Nat → Bool) (t : MidiState) (b : Nat) :
    (PushByte a t b).state = (PushByte a' t b).state ∧
      (PushByte a t b).ret = (PushByte a' t b).ret := by
  by_cases h8 : 0xf8 ≤ b
  · rw [PushByte_realtime a t b h8, PushByte_realtime a' t b h8]
    exact ⟨rfl, rfl⟩
  · by_cases hc : (phase1 t b).1.expected_data_size_ ≤
        (phase1 t b).1.data_size_
    · rw [PushByte_complete a t b h8 hc, PushByte_complete a' t b h8 hc]
      exact ⟨rfl, rfl⟩
    · rw [PushByte_incomplete a t b h8 hc, PushByte_incomplete a' t b h8 hc]
      exact ⟨rfl, rfl⟩

lemma runFrom_indep (a a' : Nat → Bool) (s : MidiState) (bs : List Nat) :
    runFrom a s bs = runFrom a' s bs := by
  induction bs generalizing s with
  | nil => rfl
  | cons b bs ih =>
    show runFrom a (PushByte a s b).state bs =
      runFrom a' (PushByte a' s b).state bs
    rw [(PushByte_state_indep a a' s b).1]
    exact ih _

lemma eventsFrom_append (accept : Nat → Bool) (s : MidiState)
    (xs ys : List Nat) :
    eventsFrom accept s (xs ++ ys) =
      eventsFrom accept s xs ++ eventsFrom accept (runFrom accept s xs) ys := by
  induction xs generalizing s with
  | nil => simp [eventsFrom, runFrom]
  | cons b bs ih =>
    simp only [List.cons_append, eventsFrom, runFrom, List.append_eq]
    rw [ih]
    simp [List.append_assoc]

lemma PushByte_ret_rt (accept : Nat → Bool) (s : MidiState) (b : Nat)
    (h : 0xf8 ≤ b) : (PushByte accept s b).ret = b := by
  rw [PushByte_realtime accept s b h]

lemma PushByte_state_rt (accept : Nat → Bool) (s : MidiState) (b : Nat)
    (h : 0xf8 ≤ b) : (PushByte accept s b).state = s := by
  rw [PushByte_realtime accept s b h]

lemma PushByte_events_rt (accept : Nat → Bool) (s : MidiState) (b : Nat)
    (h : 0xf8 ≤ b) :
    (PushByte accept s b).events = MessageReceived accept s b := by
  rw [PushByte_realtime accept s b h]

lemma PushByte_ret_c (accept : Nat → Bool) (s : MidiState) (b : Nat)
    (h : ¬ 0xf8 ≤ b)
    (hc : (phase1 s b).1.expected_data_size_ ≤ (phase1 s b).1.data_size_) :
    (PushByte accept s b).ret = (phase1 s b).1.running_status_ := by
  rw [PushByte_complete accept s b h hc]

lemma PushByte_state_c (accept : Nat → Bool) (s : MidiState) (b : Nat)
    (h : ¬ 0xf8 ≤ b)
    (hc : (phase1 s b).1.expected_data_size_ ≤ (phase1 s b).1.data_size_) :
    (PushByte accept s b).state = finalize (phase1 s b).1 := by
  rw [PushByte_complete accept s b h hc]

lemma PushByte_events_c (accept : Nat → Bool) (s : MidiState) (b : Nat)
    (h : ¬ 0xf8 ≤ b)
    (hc : (phase1 s b).1.expected_data_size_ ≤ (phase1 s b).1.data_size_) :
    (PushByte accept s b).events =
      (phase1 s b).2 ++
        MessageReceived accept (phase1 s b).1 (phase1 s b).1.running_status_ := by
  rw [PushByte_complete accept s b h hc]

lemma PushByte_ret_i (accept : Nat → Bool) (s : MidiState) (b : Nat)
    (h : ¬ 0xf8 ≤ b)
    (hc : ¬ (phase1 s b).1.expected_data_size_ ≤ (phase1 s b).1.data_size_) :
    (PushByte accept s b).ret = 0 := by
  rw [PushByte_incomplete accept s b h hc]

lemma PushByte_state_i (accept : Nat → Bool) (s : MidiState) (b : Nat)
    (h : ¬ 0xf8 ≤ b)
    (hc : ¬ (phase1 s b).1.expected_data_size_ ≤ (phase1 s b).1.data_size_) :
    (PushByte accept s b).state = (phase1 s b).1 := by
  rw [PushByte_incomplete accept s b h hc]

lemma PushByte_events_i (accept : Nat → Bool) (s : MidiState) (b : Nat)
    (h : ¬ 0xf8 ≤ b)
    (hc : ¬ (phase1 s b).1.expected_data_size_ ≤ (phase1 s b).1.data_size_) :
    (PushByte accept s b).events = (phase1 s b).2 := by
  rw [PushByte_incomplete accept s b h hc]

/-! Claim theorems. -/

/-- Claim C1, counterexample: feeding `F0 01 02 F7` to a fresh decoder
does not produce exactly the four callbacks SysExStart, SysExByte(1),
SysExByte(2), SysExEnd — the byte 0xF7 fires SysExEnd twice (once as the
implicit termination triggered by any status byte arriving while the
running status is 0xF0, once from the explicit end-of-exclusive
dispatch). -/
theorem claim_C1_counterexample :
    eventsFrom acceptAll initState [0xf0, 0x01, 0x02, 0xf7] ≠
      [Event.SysExStart, Event.SysExByte 1, Event.SysExByte 2,
       Event.SysExEnd] := by decide

/-- Claim C1, amended: feeding the byte sequence `F0 01 02 F7` to a
freshly constructed decoder invokes exactly SysExStart(), SysExByte(1),
SysExByte(2), SysExEnd(), SysExEnd(), in that order, and no other
Receiver callback fires during those four consume calls. -/
theorem claim_C1 :
    eventsFrom acceptAll initState [0xf0, 0x01, 0x02, 0xf7] =
      [Event.SysExStart, Event.SysExByte 1, Event.SysExByte 2,
       Event.SysExEnd, Event.SysExEnd] := by decide

/-- Claim C3, counterexample: after `F0` the data byte `01` completes a
message whose status 0xF0 is a System-type status (0xF0 ≤ 0xF0 < 0xF8),
as witnessed by the returned status 0xF0, yet neither
`expected_data_size_` (still 1) nor `running_status_` (still 0xF0) is
cleared to zero. -/
theorem claim_C3_counterexample :
    (PushByte acceptAll (runFrom acceptAll initState [0xf0]) 0x01).ret =
        0xf0 ∧
    (PushByte acceptAll (runFrom acceptAll initState [0xf0])
        0x01).state.running_status_ = 0xf0 ∧
    (PushByte acceptAll (runFrom acceptAll initState [0xf0])
        0x01).state.expected_data_size_ = 1 := by decide

/-- Claim C3, amended: whenever a message completes whose status byte is
strictly above 0xF0 (a one-shot System status 0xF1–0xF7; SysEx 0xF0 is
excluded, its status is deliberately kept as running status for the data
bytes of the payload), both `expected_data_size_` and `running_status_`
are cleared to zero immediately after dispatch.  Message completion with
status above 0xF0 is detected by the return value of `PushByte`, which
equals the completed status. -/
theorem claim_C3 (accept : Nat → Bool) (s : MidiState) (b : Nat)
    (h1 : b < 0xf8) (h2 : 0xf0 < (PushByte accept s b).ret) :
    (PushByte accept s b).state.running_status_ = 0 ∧
    (PushByte accept s b).state.expected_data_size_ = 0 := by
  have h8 : ¬ 0xf8 ≤ b := by omega
  by_cases hc : (phase1 s b).1.expected_data_size_ ≤ (phase1 s b).1.data_size_
  · rw [PushByte_ret_c accept s b h8 hc] at h2
    rw [PushByte_state_c accept s b h8 hc, finalize_run, finalize_exp]
    simp [h2]
  · rw [PushByte_ret_i accept s b h8 hc] at h2
    omega

/-- Claim C3, witness: the Tune-Request-class byte 0xF6 completes
immediately and both fields are cleared. -/
theorem claim_C3_witness :
    (0xf6 : Nat) < 0xf8 ∧
    0xf0 < (PushByte acceptAll initState 0xf6).ret ∧
    ((PushByte acceptAll initState 0xf6).state.running_status_ = 0 ∧
     (PushByte acceptAll initState 0xf6).state.expected_data_size_ = 0) :=
  ⟨by decide, by decide,
    claim_C3 acceptAll initState 0xf6 (by decide) (by decide)⟩

/-- Claim C4: for every realtime byte b (0xF8–0xFF) and every decoder
state, `PushByte` leaves the state (running status, data buffer, counts)
exactly unchanged; consequently inserting such a byte anywhere in a byte
sequence only inserts the realtime byte's own callbacks, leaving the
callbacks of the surrounding bytes untouched. -/
theorem claim_C4 (accept : Nat → Bool) (s : MidiState) (b : Nat)
    (xs ys : List Nat) (h1 : 0xf8 ≤ b) (_h2 : b ≤ 0xff) :
    (PushByte accept s b).state = s ∧
    eventsFrom accept s (xs ++ b :: ys) =
      eventsFrom accept s xs ++
        (PushByte accept (runFrom accept s xs) b).events ++
        eventsFrom accept (runFrom accept s xs) ys ∧
    eventsFrom accept s (xs ++ ys) =
      eventsFrom accept s xs ++ eventsFrom accept (runFrom accept s xs) ys := by
  have hstate : ∀ t : MidiState, (PushByte accept t b).state = t :=
    fun t => PushByte_state_rt accept t b h1
  refine ⟨hstate s, ?_, eventsFrom_append accept s xs ys⟩
  rw [eventsFrom_append accept s xs (b :: ys)]
  rw [show eventsFrom accept (runFrom accept s xs) (b :: ys) =
        (PushByte accept (runFrom accept s xs) b).events ++
          eventsFrom accept
            (PushByte accept (runFrom accept s xs) b).state ys from rfl]
  rw [hstate (runFrom accept s xs)]
  simp [List.append_assoc]

/-- Claim C4, witness: a Clock byte 0xF8 inserted between the two data
bytes of a Note On message. -/
theorem claim_C4_witness :
    (0xf8 : Nat) ≤ 0xf8 ∧ (0xf8 : Nat) ≤ 0xff ∧
    ((PushByte acceptAll initState 0xf8).state = initState ∧
     eventsFrom acceptAll initState ([0x90, 0x3c] ++ 0xf8 :: [0x40]) =
       eventsFrom acceptAll initState [0x90, 0x3c] ++
         (PushByte acceptAll (runFrom acceptAll initState [0x90, 0x3c])
             0xf8).events ++
         eventsFrom acceptAll (runFrom acceptAll initState [0x90, 0x3c])
           [0x40] ∧
     eventsFrom acceptAll initState ([0x90, 0x3c] ++ [0x40]) =
       eventsFrom acceptAll initState [0x90, 0x3c] ++
         eventsFrom acceptAll (runFrom acceptAll initState [0x90, 0x3c])
           [0x40]) :=
  ⟨by decide, by decide,
    claim_C4 acceptAll initState 0xf8 [0x90, 0x3c] [0x40]
      (by decide) (by decide)⟩

/-- Claim C5: `PushByte` returns the byte itself for a realtime byte;
for any other byte it returns the running status of the just-completed
message exactly when the completion test `data_size_ >=
expected_data_size_` fires after the byte is processed, and 0 otherwise
(an orphan data byte with no running status yields 0, since there the
running status itself is 0 and no message exists).  The concrete trace
checks the returned boundary markers across every message type of the
dispatch table. -/
theorem claim_C5 (accept : Nat → Bool) (s : MidiState) (b : Nat)
    (_h : b ≤ 0xff) :
    (0xf8 ≤ b → (PushByte accept s b).ret = b) ∧
    (b < 0xf8 →
      (PushByte accept s b).ret =
        if (phase1 s b).1.expected_data_size_ ≤ (phase1 s b).1.data_size_
        then (phase1 s b).1.running_status_ else 0) ∧
    retsFrom acceptAll initState
      [0x80, 0x3c, 0x40, 0x90, 0x3c, 0x40, 0xa0, 0x3c, 0x40,
       0xb0, 0x78, 0x00, 0xc0, 0x05, 0xd0, 0x40, 0xe0, 0x00, 0x40,
       0xf8, 0xf0, 0x01, 0xf7, 0x33] =
      [0, 0, 0x80, 0, 0, 0x90, 0, 0, 0xa0, 0, 0, 0xb0, 0, 0xc0,
       0, 0xd0, 0, 0, 0xe0, 0xf8, 0, 0xf0, 0xf7, 0] := by
  refine ⟨fun h8 => PushByte_ret_rt accept s b h8, fun hlt => ?_, by decide⟩
  have h8 : ¬ 0xf8 ≤ b := by omega
  by_cases hc : (phase1 s b).1.expected_data_size_ ≤ (phase1 s b).1.data_size_
  · rw [PushByte_ret_c accept s b h8 hc, if_pos hc]
  · rw [PushByte_ret_i accept s b h8 hc, if_neg hc]

/-- Claim C5, witness: instantiated at a Note On status byte, which does
not complete a message and returns 0. -/
theorem claim_C5_witness :
    (0x90 : Nat) ≤ 0xff ∧
    ((0xf8 ≤ (0x90 : Nat) →
        (PushByte acceptAll initState 0x90).ret = 0x90) ∧
     ((0x90 : Nat) < 0xf8 →
        (PushByte acceptAll initState 0x90).ret =
          if (phase1 initState 0x90).1.expected_data_size_ ≤
              (phase1 initState 0x90).1.data_size_
          then (phase1 initState 0x90).1.running_status_ else 0) ∧
     retsFrom acceptAll initState
       [0x80, 0x3c, 0x40, 0x90, 0x3c, 0x40, 0xa0, 0x3c, 0x40,
        0xb0, 0x78, 0x00, 0xc0, 0x05, 0xd0, 0x40, 0xe0, 0x00, 0x40,
        0xf8, 0xf0, 0x01, 0xf7, 0x33] =
       [0, 0, 0x80, 0, 0, 0x90, 0, 0, 0xa0, 0, 0, 0xb0, 0, 0xc0,
        0, 0xd0, 0, 0, 0xe0, 0xf8, 0, 0xf0, 0xf7, 0]) :=
  ⟨by decide, claim_C5 acceptAll initState 0x90 (by decide)⟩

/-- Claim C10: in every state reachable from the constructor,
`data_size_ ≤ expected_data_size_ ≤ 2` holds at call boundaries, so the
buffered write `data_[data_size_++]` always targets index 0, 1 or 2 of
the 3-byte array `data_`. -/
theorem claim_C10 (s : MidiState) (h : Reachable s) :
    s.data_size_ ≤ s.expected_data_size_ ∧ s.expected_data_size_ ≤ 2 ∧
      s.data_size_ < 3 := by
  obtain ⟨a1, a2, _⟩ := reachable_inv s h
  exact ⟨a1, a2, by omega⟩

/-- Claim C10, witness: the invariant at the initial state. -/
theorem claim_C10_witness :
    Reachable initState ∧
    (initState.data_size_ ≤ initState.expected_data_size_ ∧
     initState.expected_data_size_ ≤ 2 ∧ initState.data_size_ < 3) :=
  ⟨Reachable.init, claim_C10 initState Reachable.init⟩

/-- Claim C6: whenever a non-realtime status byte (0x80–0xF7) arrives
while the running status is 0xF0 (SysEx in progress, no explicit 0xF7
yet), the decoder's first callback of that call is SysExEnd — the
implicit SysEx termination precedes any processing of the new status;
and feeding `F0 01 90 3C 40` to a fresh decoder produces SysExStart,
SysExByte(1), SysExEnd, NoteOn(0,60,64). -/
theorem claim_C6 (accept : Nat → Bool) (s : MidiState) (b : Nat)
    (h1 : s.running_status_ = 0xf0) (h2 : 0x80 ≤ b) (h3 : b < 0xf8) :
    (PushByte accept s b).events.head? = some Event.SysExEnd ∧
    eventsFrom acceptAll initState [0xf0, 0x01, 0x90, 0x3c, 0x40] =
      [Event.SysExStart, Event.SysExByte 1, Event.SysExEnd,
       Event.NoteOn 0 60 64] := by
  refine ⟨?_, by decide⟩
  have h8 : ¬ 0xf8 ≤ b := by omega
  have hev : (phase1 s b).2 =
      Event.SysExEnd :: (if b = 0xf0 then [Event.SysExStart] else []) := by
    rw [phase1_events_status s b h2, if_pos h1]
    rfl
  by_cases hc : (phase1 s b).1.expected_data_size_ ≤ (phase1 s b).1.data_size_
  · rw [PushByte_events_c accept s b h8 hc, hev]
    simp
  · rw [PushByte_events_i accept s b h8 hc, hev]
    simp

/-- Claim C6, witness: instantiated after `F0`, pushing the status byte
0x90. -/
theorem claim_C6_witness :
    (runFrom acceptAll initState [0xf0]).running_status_ = 0xf0 ∧
    (0x80 : Nat) ≤ 0x90 ∧ (0x90 : Nat) < 0xf8 ∧
    ((PushByte acceptAll (runFrom acceptAll initState [0xf0])
        0x90).events.head? = some Event.SysExEnd ∧
     eventsFrom acceptAll initState [0xf0, 0x01, 0x90, 0x3c, 0x40] =
       [Event.SysExStart, Event.SysExByte 1, Event.SysExEnd,
        Event.NoteOn 0 60 64]) :=
  ⟨by decide, by decide, by decide,
    claim_C6 acceptAll (runFrom acceptAll initState [0xf0]) 0x90
      (by decide) (by decide) (by decide)⟩

/-- Claim C7: a completed message whose status has high nibble 0x90 and
whose channel is accepted dispatches NoteOn(channel, data0, data1) when
the second data byte is nonzero, and NoteOff(channel, data0, 0) when it
is zero; feeding `90 3C 40` then `3C 00` (running status reused)
produces NoteOn(0,60,64) followed by NoteOff(0,60,0). -/
theorem claim_C7 (accept : Nat → Bool) (s : MidiState) (status : Nat)
    (h1 : status &&& 0xf0 = 0x90) (h2 : accept (status &&& 0x0f) = true) :
    MessageReceived accept s status =
      (if s.data_1 ≠ 0
       then [Event.NoteOn (status &&& 0x0f) s.data_0 s.data_1]
       else [Event.NoteOff (status &&& 0x0f) s.data_0 0]) ∧
    eventsFrom acceptAll initState [0x90, 0x3c, 0x40, 0x3c, 0x00] =
      [Event.NoteOn 0 60 64, Event.NoteOff 0 60 0] := by
  refine ⟨?_, by decide⟩
  have h0 : status ≠ 0 := by
    intro h
    rw [h] at h1
    exact absurd h1 (by decide)
  simp [MessageReceived, dispatchEvent, h0, h1, h2]

/-- Claim C7, witness: a Note On message buffered with velocity 64. -/
theorem claim_C7_witness :
    (0x90 : Nat) &&& 0xf0 = 0x90 ∧
    acceptAll ((0x90 : Nat) &&& 0x0f) = true ∧
    (MessageReceived acceptAll
        { running_status_ := 0x90, data_0 := 0x3c, data_1 := 0x40,
          data_2 := 0, data_size_ := 2, expected_data_size_ := 2 } 0x90 =
      (if ({ running_status_ := 0x90, data_0 := 0x3c, data_1 := 0x40,
             data_2 := 0, data_size_ := 2,
             expected_data_size_ := 2 } : MidiState).data_1 ≠ 0
       then [Event.NoteOn ((0x90 : Nat) &&& 0x0f) 0x3c 0x40]
       else [Event.NoteOff ((0x90 : Nat) &&& 0x0f) 0x3c 0]) ∧
     eventsFrom acceptAll initState [0x90, 0x3c, 0x40, 0x3c, 0x00] =
       [Event.NoteOn 0 60 64, Event.NoteOff 0 60 0]) :=
  ⟨by decide, by decide,
    claim_C7 acceptAll
      { running_status_ := 0x90, data_0 := 0x3c, data_1 := 0x40,
        data_2 := 0, data_size_ := 2, expected_data_size_ := 2 } 0x90
      (by decide) (by decide)⟩

/-- Claim C8: a data byte (below 0x80) consumed in a reachable state
whose running status is 0 is reported via the BozoByte callback and
nothing else, the call returns 0, and both counts (`data_size_`,
`expected_data_size_`) are unchanged at return. -/
theorem claim_C8 (accept : Nat → Bool) (s : MidiState) (b : Nat)
    (h1 : Reachable s) (h2 : s.running_status_ = 0) (h3 : b < 0x80) :
    (PushByte accept s b).events = [Event.BozoByte b] ∧
    (PushByte accept s b).ret = 0 ∧
    (PushByte accept s b).state.data_size_ = s.data_size_ ∧
    (PushByte accept s b).state.expected_data_size_ =
      s.expected_data_size_ := by
  obtain ⟨hds0, hexp0⟩ := (reachable_inv s h1).2.2 h2
  have h8 : ¬ 0xf8 ≤ b := by omega
  have h80 : ¬ 0x80 ≤ b := by omega
  have hc : (phase1 s b).1.expected_data_size_ ≤
      (phase1 s b).1.data_size_ := by
    rw [phase1_exp, phase1_ds]
    simp only [h80, if_false]
    omega
  have hrun : (phase1 s b).1.running_status_ = 0 := by
    rw [phase1_run]
    simp [h80, h2]
  have hd0 : (phase1 s b).1.data_0 = b := by
    unfold phase1
    rw [if_neg h80]
    simp [writeData, hds0]
  refine ⟨?_, ?_, ?_, ?_⟩
  · rw [PushByte_events_c accept s b h8 hc, phase1_events_data s b h80,
      hrun, MessageReceived_zero, hd0]
    simp
  · rw [PushByte_ret_c accept s b h8 hc, hrun]
  · rw [PushByte_state_c accept s b h8 hc, finalize_ds, hds0]
  · rw [PushByte_state_c accept s b h8 hc, finalize_exp, hrun,
      phase1_exp]
    simp [h80]

/-- Claim C8, witness: the orphan byte 0x33 pushed into a fresh
decoder. -/
theorem claim_C8_witness :
    Reachable initState ∧ initState.running_status_ = 0 ∧
    (0x33 : Nat) < 0x80 ∧
    ((PushByte acceptAll initState 0x33).events =
        [Event.BozoByte 0x33] ∧
     (PushByte acceptAll initState 0x33).ret = 0 ∧
     (PushByte acceptAll initState 0x33).state.data_size_ =
       initState.data_size_ ∧
     (PushByte acceptAll initState 0x33).state.expected_data_size_ =
       initState.expected_data_size_) :=
  ⟨Reachable.init, rfl, by decide,
    claim_C8 acceptAll initState 0x33 Reachable.init rfl (by decide)⟩

/-- Claim C9: a completed channel-addressed message (high nibble of the
status is not 0xF0) whose channel the device rejects produces no
callback at all, and the parser state after any `PushByte` call is
independent of the channel-acceptance predicate, so the whole stream
decodes through identical states whether the channel is accepted or
not. -/
theorem claim_C9 (accept : Nat → Bool) (s : MidiState) (bs : List Nat)
    (status : Nat) (h1 : status &&& 0xf0 ≠ 0xf0) (h2 : status ≠ 0)
    (h3 : accept (status &&& 0x0f) = false) :
    MessageReceived accept s status = [] ∧
    (∀ (a a' : Nat → Bool) (t : MidiState) (b : Nat),
        (PushByte a t b).state = (PushByte a' t b).state ∧
        (PushByte a t b).ret = (PushByte a' t b).ret) ∧
    runFrom accept initState bs = runFrom acceptAll initState bs := by
  refine ⟨?_, PushByte_state_indep,
    runFrom_indep accept acceptAll initState bs⟩
  simp [MessageReceived, h1, h2, h3]

/-- Claim C9, witness: a device rejecting every channel drops the
NoteOn of `90 3C 40` while its parser state matches the accepting
device's. -/
theorem claim_C9_witness :
    ((0x90 : Nat) &&& 0xf0 ≠ 0xf0) ∧ ((0x90 : Nat) ≠ 0) ∧
    ((fun _ => false) ((0x90 : Nat) &&& 0x0f) = false) ∧
    (MessageReceived (fun _ => false)
        { running_status_ := 0x90, data_0 := 0x3c, data_1 := 0x40,
          data_2 := 0, data_size_ := 2, expected_data_size_ := 2 }
        0x90 = [] ∧
     (∀ (a a' : Nat → Bool) (t : MidiState) (b : Nat),
         (PushByte a t b).state = (PushByte a' t b).state ∧
         (PushByte a t b).ret = (PushByte a' t b).ret) ∧
     runFrom (fun _ => false) initState [0x90, 0x3c, 0x40] =
       runFrom acceptAll initState [0x90, 0x3c, 0x40]) :=
  ⟨by decide, by decide, rfl,
    claim_C9 (fun _ => false)
      { running_status_ := 0x90, data_0 := 0x3c, data_1 := 0x40,
        data_2 := 0, data_size_ := 2, expected_data_size_ := 2 }
      [0x90, 0x3c, 0x40] 0x90 (by decide) (by decide) rfl⟩

/-- Claim C2, counterexample: with running status 0xF0 (state after
feeding `F0`), a single call consuming 0xF7 invokes two callbacks
(SysExEnd twice: implicit termination plus the explicit end-of-exclusive
dispatch), refuting "at most one callback per consume call". -/
theorem claim_C2_counterexample :
    ¬ (PushByte acceptAll (runFrom acceptAll initState [0xf0])
        0xf7).events.length ≤ 1 := by decide

/-- Claim C2, amended: a single `PushByte` call invokes at most two
callbacks on the Receiver, and at most one except in the implicit SysEx
termination case — a non-realtime status byte (0x80–0xF7) arriving while
the running status is 0xF0, where the SysExEnd of the interrupted SysEx
message may precede one further callback of the new byte. -/
theorem claim_C2 (accept : Nat → Bool) (s : MidiState) (b : Nat)
    (_h : b ≤ 0xff) :
    (PushByte accept s b).events.length ≤ 2 ∧
    (¬ (s.running_status_ = 0xf0 ∧ 0x80 ≤ b ∧ b < 0xf8) →
      (PushByte accept s b).events.length ≤ 1) := by
  by_cases h8 : 0xf8 ≤ b
  · rw [PushByte_events_rt accept s b h8]
    have hm := MessageReceived_length accept s b
    exact ⟨hm.trans (by norm_num), fun _ => hm⟩
  · by_cases h80 : 0x80 ≤ b
    · have hev := phase1_events_status s b h80
      by_cases hf : s.running_status_ = 0xf0
      · refine ⟨?_, fun hcon => absurd ⟨hf, h80, by omega⟩ hcon⟩
        by_cases hb0 : b = 0xf0
        · have hc : ¬ (phase1 s b).1.expected_data_size_ ≤
              (phase1 s b).1.data_size_ := by
            subst hb0
            rw [phase1_exp, phase1_ds]
            simp only [h80, if_true]
            decide
          rw [PushByte_events_i accept s b h8 hc, hev]
          simp [hf, hb0]
        · by_cases hc : (phase1 s b).1.expected_data_size_ ≤
              (phase1 s b).1.data_size_
          · rw [PushByte_events_c accept s b h8 hc, hev]
            have hm := MessageReceived_length accept (phase1 s b).1
              (phase1 s b).1.running_status_
            simp [hf, hb0]
            omega
          · rw [PushByte_events_i accept s b h8 hc, hev]
            simp [hf, hb0]
      · have h1 : (PushByte accept s b).events.length ≤ 1 := by
          by_cases hb0 : b = 0xf0
          · have hc : ¬ (phase1 s b).1.expected_data_size_ ≤
                (phase1 s b).1.data_size_ := by
              subst hb0
              rw [phase1_exp, phase1_ds]
              simp only [h80, if_true]
              decide
            rw [PushByte_events_i accept s b h8 hc, hev]
            simp [hf, hb0]
          · by_cases hc : (phase1 s b).1.expected_data_size_ ≤
                (phase1 s b).1.data_size_
            · rw [PushByte_events_c accept s b h8 hc, hev]
              have hm := MessageReceived_length accept (phase1 s b).1
                (phase1 s b).1.running_status_
              simp [hf, hb0]
              omega
            · rw [PushByte_events_i accept s b h8 hc, hev]
              simp [hf, hb0]
        exact ⟨h1.trans (by norm_num), fun _ => h1⟩
    · have hev := phase1_events_data s b h80
      have h1 : (PushByte accept s b).events.length ≤ 1 := by
        by_cases hc : (phase1 s b).1.expected_data_size_ ≤
            (phase1 s b).1.data_size_
        · rw [PushByte_events_c accept s b h8 hc, hev]
          simpa using MessageReceived_length accept (phase1 s b).1
            (phase1 s b).1.running_status_
        · rw [PushByte_events_i accept s b h8 hc, hev]
          simp
      exact ⟨h1.trans (by norm_num), fun _ => h1⟩

/-- Claim C2, witness: a Note On status byte in the fresh state fires no
callback at all. -/
theorem claim_C2_witness :
    (0x90 : Nat) ≤ 0xff ∧
    ((PushByte acceptAll initState 0x90).events.length ≤ 2 ∧
     (¬ (initState.running_status_ = 0xf0 ∧ 0x80 ≤ (0x90 : Nat) ∧
          (0x90 : Nat) < 0xf8) →
       (PushByte acceptAll initState 0x90).events.length ≤ 1)) :=
  ⟨by decide, claim_C2 acceptAll initState 0x90 (by decide)⟩

end hardware_midi
